import Mathlib

/-!
Verification of the deepship-llm-worker orchestration layer.

The Python sources are shallowly embedded: strings become `List Char`,
dictionaries become association lists, fallible code returns `Except PyErr`,
and external services (the LLM, the web-search provider, the JSON parser of
the standard library, the pub/sub transport) are abstracted as parameters.
Every definition mirrors a concrete function of the repository
(`src/query_transformer.py`, `src/deep_search.py`, `src/tasks.py`,
`src/redis_client.py`); the file ends with one theorem per specification
claim.
-/

namespace DeepShip

/-- Python exception kinds that the embedded code can raise. -/
inductive PyErr
  | attributeError
  | keyError
  | typeError
  deriving DecidableEq, Repr

/-! ## Python string primitives (on `List Char`) -/

/-- Characters treated as whitespace by Python `str.strip()` / `str.split()`
and by the regex class `\s` (ASCII part; the sources are ASCII). -/
def pyIsSpaceChar (c : Char) : Bool :=
  c = ' ' || c = '\t' || c = '\n' || c = '\r' || c.val = 11 || c.val = 12

/-- Python `str.strip()`. -/
def pyStrip (s : List Char) : List Char :=
  ((s.dropWhile pyIsSpaceChar).reverse.dropWhile pyIsSpaceChar).reverse

/-- Python `str.lower()` (ASCII). -/
def pyLowerL (s : List Char) : List Char :=
  s.map Char.toLower

/-- Python `str.replace(old, new)`: every non-overlapping occurrence,
scanning left to right, without rescanning the replacement text.
`old` is assumed non-empty (as in the sources). -/
def pyReplace (s old new : List Char) : List Char :=
  go s.length s
where
  go : Nat → List Char → List Char
    | 0, rest => rest
    | _ + 1, [] => []
    | fuel + 1, c :: rest =>
      if old.isPrefixOf (c :: rest) then
        new ++ go fuel ((c :: rest).drop old.length)
      else
        c :: go fuel rest

/-- Python truthiness of an optional string (`None` and `""` are falsy). -/
def strTruthy : Option (List Char) → Bool
  | none => false
  | some s => !s.isEmpty

/-! ## A model of Python/JSON values -/

/-- JSON values as produced by `json.loads` (numbers restricted to integers;
no claim depends on float values). -/
inductive Json
  | null
  | bool (b : Bool)
  | num (n : Int)
  | str (s : List Char)
  | arr (xs : List Json)
  | obj (fields : List (List Char × Json))

/-- Python truthiness of a JSON value. -/
def Json.truthy : Json → Bool
  | .null => false
  | .bool b => b
  | .num n => n != 0
  | .str s => !s.isEmpty
  | .arr xs => !xs.isEmpty
  | .obj fs => !fs.isEmpty

/-- Dictionary lookup (`d.get(k)` / `d[k]` when present). -/
def lookupK (fs : List (List Char × Json)) (k : List Char) : Option Json :=
  match fs with
  | [] => none
  | (k', v) :: rest => if k' = k then some v else lookupK rest k

/-- Dictionary assignment `d[k] = v`: replaces the first binding of `k`
in place, appends if absent (Python dicts keep insertion order). -/
def setK (fs : List (List Char × Json)) (k : List Char) (v : Json) :
    List (List Char × Json) :=
  match fs with
  | [] => [(k, v)]
  | (k', v') :: rest =>
    if k' = k then (k', v) :: rest else (k', v') :: setK rest k v

theorem lookupK_setK_self (fs : List (List Char × Json)) (k : List Char)
    (v : Json) : lookupK (setK fs k v) k = some v := by
  induction fs with
  | nil => simp [setK, lookupK]
  | cons hd tl ih =>
    obtain ⟨k', v'⟩ := hd
    by_cases h : k' = k
    · simp [setK, lookupK, h]
    · simp [setK, lookupK, h, ih]

theorem lookupK_setK_ne (fs : List (List Char × Json)) (k k' : List Char)
    (v : Json) (h : k' ≠ k) : lookupK (setK fs k v) k' = lookupK fs k' := by
  induction fs with
  | nil =>
    have hk : ¬k = k' := fun h' => h h'.symm
    simp [setK, lookupK, hk]
  | cons hd tl ih =>
    obtain ⟨k0, v0⟩ := hd
    by_cases h0 : k0 = k
    · subst h0
      have hk : ¬k0 = k' := fun h' => h h'.symm
      simp [setK, lookupK, hk]
    · simp [setK, lookupK, h0, ih]

/-! ## Query planner: `EnhancedQueryTransformer.get_transformed_query`
(src/query_transformer.py)

The LLM call (lines 106-115) is abstracted as an `Except PyErr (List Char)`
argument: `.ok text` is the response text, `.error _` is any exception
raised while producing it.  The standard-library `json.loads` is abstracted
as a `List Char → Option Json` argument (`none` = `JSONDecodeError`).  The
regular expressions of the fallback extractor (lines 162-171) are fixed
patterns of the source and are implemented concretely below. -/

/-- Key `"web_search_needed"`. -/
def kWeb : List Char := "web_search_needed".toList
/-- Key `"search_queries"`. -/
def kSQ : List Char := "search_queries".toList
/-- Key `"data_extraction_needed"`. -/
def kDE : List Char := "data_extraction_needed".toList
/-- Key `"data_types"`. -/
def kDT : List Char := "data_types".toList

/-- The strings whose lowercase form counts as a true boolean in step 4
(`['true', '1', 'yes']`, lines 205 and 213). -/
def truthyStrs : List (List Char) := ["true".toList, "1".toList, "yes".toList]

/-- Steps 1-2 of the response processing (lines 115-141): `.strip()`,
markdown-fence stripping, `.strip()`, then the Python-literal to JSON
replacements. -/
def cleanLLMText (raw : List Char) : List Char :=
  let t := pyStrip raw
  let t :=
    if "```json".toList.isPrefixOf t then t.drop 7
    else if "```".toList.isPrefixOf t then t.drop 3
    else t
  let t := if "```".toList.isSuffixOf t then t.take (t.length - 3) else t
  let t := pyStrip t
  let t := pyReplace t ['\''] ['"']
  let t := pyReplace t "True".toList "true".toList
  let t := pyReplace t "False".toList "false".toList
  pyReplace t "None".toList "null".toList

/-- Case-insensitive literal match: `pat` (given lowercase) against a prefix
of `s`; returns the remainder after the match. -/
def ciMatch : List Char → List Char → Option (List Char)
  | [], s => some s
  | _ :: _, [] => none
  | p :: ps, c :: cs => if c.toLower = p then ciMatch ps cs else none

/-- Case-sensitive literal match; returns the remainder. -/
def exMatch : List Char → List Char → Option (List Char)
  | [], s => some s
  | _ :: _, [] => none
  | p :: ps, c :: cs => if c = p then exMatch ps cs else none

/-- `re.search` driver: try the matcher at every position, left to right. -/
def scanOpt {α : Type} (f : List Char → Option α) : List Char → Option α
  | [] => f []
  | c :: rest =>
    match f (c :: rest) with
    | some a => some a
    | none => scanOpt f rest

/-- One attempt of `r'"web_search_needed":\s*(true|false)'` (`re.IGNORECASE`)
at the head of `s`; `group(1).lower() == 'true'` becomes the `Bool`. -/
def matchWebAt (s : List Char) : Option Bool :=
  match ciMatch "\"web_search_needed\":".toList s with
  | none => none
  | some r =>
    let r := r.dropWhile pyIsSpaceChar
    match ciMatch "true".toList r with
    | some _ => some true
    | none =>
      match ciMatch "false".toList r with
      | some _ => some false
      | none => none

/-- Line 162: `re.search(r'"web_search_needed":\s*(true|false)', text, re.IGNORECASE)`. -/
def reWebSearch (s : List Char) : Option Bool :=
  scanOpt matchWebAt s

/-- The group `(.*?)` of `r'"search_queries":\s*\[(.*?)\]'`: the characters
strictly before the first `']'`, if any. -/
def takeUntilRB : List Char → Option (List Char)
  | [] => none
  | c :: rest =>
    if c = ']' then some []
    else match takeUntilRB rest with
      | some g => some (c :: g)
      | none => none

/-- One attempt of `r'"search_queries":\s*\[(.*?)\]'` (`re.DOTALL`) at the
head of `s`. -/
def matchQueriesAt (s : List Char) : Option (List Char) :=
  match exMatch "\"search_queries\":".toList s with
  | none => none
  | some r =>
    match r.dropWhile pyIsSpaceChar with
    | '[' :: r2 => takeUntilRB r2
    | _ => none

/-- Line 166: `re.search(r'"search_queries":\s*\[(.*?)\]', text, re.DOTALL)`. -/
def reQueriesGroup (s : List Char) : Option (List Char) :=
  scanOpt matchQueriesAt s

/-- Line 171: `re.findall(r'"([^"]+)"', queries_str)`. -/
def findQuoted (s : List Char) : List (List Char) :=
  go s.length s
where
  go : Nat → List Char → List (List Char)
    | 0, _ => []
    | _ + 1, [] => []
    | fuel + 1, c :: rest =>
      if c = '"' then
        let content := rest.takeWhile (fun c' => c' ≠ '"')
        if content.isEmpty then go fuel rest
        else
          match rest.drop content.length with
          | '"' :: rem => content :: go fuel rem
          | _ => go fuel rest
      else go fuel rest

/-- The list of queries the regex extractor recovers from the cleaned text
(lines 166-171): empty when the array pattern does not match. -/
def queriesFromText (t : List Char) : List (List Char) :=
  match reQueriesGroup t with
  | some inner => findQuoted inner
  | none => []

/-- The regex-based fallback of lines 156-184, run when `json.loads` fails.
Its own `try` body is total, so the "ultimate fallback" of lines 186-197 is
unreachable. -/
def regexFallback (query t : List Char) : List (List Char × Json) :=
  let web := (reWebSearch t).getD true
  let sq := queriesFromText t
  let sq := if sq.isEmpty && web then [query] else sq
  [(kWeb, Json.bool web), (kSQ, Json.arr (sq.map Json.str)),
   (kDE, Json.bool true), (kDT, Json.arr [Json.str "general".toList])]

/-- The emergency fallback of lines 254-277 (outer `except`). -/
def emergencyFallback (query : List Char) : List (List Char × Json) :=
  [(kWeb, Json.bool true), (kSQ, Json.arr [Json.str query]),
   (kDE, Json.bool false), (kDT, Json.arr [])]

/-- The dictionary the regex fallback builds when it recovers nothing: the
default `web_search_needed = True` of line 163, the empty query list
replaced by `[query]` at lines 174-175, and the constants of lines
180-181. -/
def fallbackFields (query : List Char) : List (List Char × Json) :=
  [(kWeb, Json.bool true), (kSQ, Json.arr [Json.str query]),
   (kDE, Json.bool true), (kDT, Json.arr [Json.str "general".toList])]

/-- A `json.loads` outcome for a response whose `search_queries` is the
scalar string `"paris weather"` and whose `web_search_needed` is the
string `"false"` (used to exercise the scalar branch of step 4). -/
def scalarPlanStub : List Char → Option Json := fun _ =>
  some (Json.obj
    [(kWeb, Json.str "false".toList),
     (kSQ, Json.str "paris weather".toList),
     (kDE, Json.bool true), (kDT, Json.arr [])])

/-- An LLM response whose plan carries a query with a stale bare year. -/
def staleYearText : List Char :=
  ("\x7b\"web_search_needed\": true, \"search_queries\": [\"US GDP 2023\"], "
    ++ "\"data_extraction_needed\": true, \"data_types\": [\"statistics\"]\x7d").toList

/-- The value `json.loads` returns for `staleYearText`. -/
def staleYearStub : List Char → Option Json := fun _ =>
  some (Json.obj
    [(kWeb, Json.bool true),
     (kSQ, Json.arr [Json.str "US GDP 2023".toList]),
     (kDE, Json.bool true),
     (kDT, Json.arr [Json.str "statistics".toList])])

/-- Line 204-205: coerce a string `web_search_needed` to a boolean. -/
def normWeb (fs : List (List Char × Json)) : List (List Char × Json) :=
  match lookupK fs kWeb with
  | some (.str s) => setK fs kWeb (.bool (truthyStrs.contains (pyLowerL s)))
  | _ => fs

/-- Line 208-209: force `search_queries` to be a list. -/
def normSQ (fs : List (List Char × Json)) : List (List Char × Json) :=
  match lookupK fs kSQ with
  | some (.arr _) => fs
  | _ => setK fs kSQ (.arr [])

/-- Line 212-213: coerce a string `data_extraction_needed` to a boolean. -/
def normDE (fs : List (List Char × Json)) : List (List Char × Json) :=
  match lookupK fs kDE with
  | some (.str s) => setK fs kDE (.bool (truthyStrs.contains (pyLowerL s)))
  | _ => fs

/-- Line 216-217: force `data_types` to be a list. -/
def normDT (fs : List (List Char × Json)) : List (List Char × Json) :=
  match lookupK fs kDT with
  | some (.arr _) => fs
  | _ => setK fs kDT (.arr [])

/-- One element of the line-220 filter `[q for q in ... if q and q.strip()]`:
a falsy element is dropped without calling `.strip()`; a truthy non-string
raises `AttributeError` at `.strip()`; a kept string is prepended to the
result for the remaining elements. -/
def filterQsHead (q : Json) (restR : Except PyErr (List Json)) :
    Except PyErr (List Json) :=
  if q.truthy = false then restR
  else
    match q with
    | .str s =>
      if (pyStrip s).isEmpty then restR
      else
        match restR with
        | .ok qs => .ok (.str s :: qs)
        | .error e => .error e
    | _ => .error .attributeError

/-- Line 220: the whole filter. -/
def filterQs : List Json → Except PyErr (List Json)
  | [] => .ok []
  | q :: rest => filterQsHead q (filterQs rest)

/-- The predicate of the line-220 filter on a string element:
`q and q.strip()` (false on every non-string, where the source would raise
instead). -/
def pyKeep : Json → Bool
  | .str s => !s.isEmpty && !(pyStrip s).isEmpty
  | _ => false

/-- Python truthiness of `extracted_data.get('web_search_needed')`
(`None` when the key is absent). -/
def webTruthy (fs : List (List Char × Json)) : Bool :=
  match lookupK fs kWeb with
  | none => false
  | some v => v.truthy

/-- Lines 220-233 after the filter: write the filtered list back, restore
`[query]` when web search is wanted and the list is empty (line 223), then
the `print` of line 232, which raises `KeyError` when `web_search_needed`
is absent. -/
def planTail (query : List Char) (fs : List (List Char × Json))
    (qs2 : List Json) : Except PyErr (List (List Char × Json)) :=
  let fs1 := setK fs kSQ (.arr qs2)
  let fs2 :=
    if webTruthy fs1 && qs2.isEmpty then
      setK fs1 kSQ (.arr [Json.str query])
    else fs1
  match lookupK fs2 kWeb with
  | none => .error .keyError
  | some _ => .ok fs2

/-- Step 4 of the response processing (lines 201-233): normalization and
validation of the parsed value.  A non-dict value raises `AttributeError`
at the first `.get`. -/
def normalizePlan (query : List Char) (j : Json) :
    Except PyErr (List (List Char × Json)) :=
  match j with
  | .obj fs0 =>
    let fs := normDT (normDE (normSQ (normWeb fs0)))
    match lookupK fs kSQ with
    | some (.arr qs) =>
      match filterQs qs with
      | .error e => .error e
      | .ok qs2 => planTail query fs qs2
    | _ => .error .typeError
  | _ => .error .attributeError

/-- `EnhancedQueryTransformer.get_transformed_query` (lines 25-277), as the
map from the user query and the LLM outcome to the plan dictionary carried
by the final `transformer_output` item.  `jsonLoads` abstracts the
standard-library `json.loads` on the cleaned text. -/
def getTransformedQuery (jsonLoads : List Char → Option Json)
    (query : List Char) (llm : Except PyErr (List Char)) :
    List (List Char × Json) :=
  match llm with
  | .error _ => emergencyFallback query
  | .ok raw =>
    let t := cleanLLMText raw
    let d : Json :=
      match jsonLoads t with
      | some v => v
      | none => Json.obj (regexFallback query t)
    match normalizePlan query d with
    | .ok fs => fs
    | .error _ => emergencyFallback query

/-! ## `EnhancedQueryTransformer._clean_query_dates`
(src/query_transformer.py lines 279-322)

The four `re.sub(..., '', ...)` calls are embedded as left-to-right scans
over the original string (Python `re.sub` finds non-overlapping matches in
the input, and the `\b` assertions read the input's neighbours). -/

/-- `\w` of the patterns (ASCII). -/
def wordChar (c : Char) : Bool :=
  c.isAlphanum || c = '_'

/-- `\b` before a match that starts with a word character. -/
def bdyBefore : Option Char → Bool
  | none => true
  | some c => !wordChar c

/-- `\b` after a match that ends with a word character. -/
def bdyAfter : List Char → Bool
  | [] => true
  | c :: _ => !wordChar c

/-- `202[0-4]`: match and return the remainder. -/
def matchYear : List Char → Option (List Char)
  | '2' :: '0' :: '2' :: d :: rest =>
    if '0' ≤ d && d ≤ '4' then some rest else none
  | _ => none

/-- The month alternation of patterns 1 and 4, in source order. -/
def monthNames : List (List Char) :=
  ["january".toList, "february".toList, "march".toList, "april".toList,
   "may".toList, "june".toList, "july".toList, "august".toList,
   "september".toList, "october".toList, "november".toList,
   "december".toList]

/-- Case-insensitive month match (the patterns use `re.IGNORECASE`). -/
def matchMonth (s : List Char) : Option (List Char) :=
  go monthNames
where
  go : List (List Char) → Option (List Char)
    | [] => none
    | m :: ms =>
      match ciMatch m s with
      | some r => some r
      | none => go ms

/-- `\s+`: at least one whitespace character, consumed greedily. -/
def ws1 (s : List Char) : Option (List Char) :=
  match s with
  | c :: _ => if pyIsSpaceChar c then some (s.dropWhile pyIsSpaceChar) else none
  | [] => none

/-- `[,\s]+`, consumed greedily. -/
def commaWs1 (s : List Char) : Option (List Char) :=
  let cls := fun c => c = ',' || pyIsSpaceChar c
  match s with
  | c :: _ => if cls c then some (s.dropWhile cls) else none
  | [] => none

/-- `\d{1,2}` with the regex engine's backtracking: the remainders after
consuming two digits and after one, in preference order. -/
def dayRems (s : List Char) : List (List Char) :=
  match s with
  | a :: b :: rest =>
    if a.isDigit && b.isDigit then [rest, b :: rest]
    else if a.isDigit then [b :: rest] else []
  | [a] => if a.isDigit then [[]] else []
  | [] => []

/-- Pattern 1 (line 294): `\b(month)\s+\d{1,2}[,\s]+202[0-4]\b`,
matched at the head of `s`; returns the match length. -/
def tryP1 (prev : Option Char) (s : List Char) : Option Nat :=
  if !bdyBefore prev then none
  else
    match matchMonth s with
    | none => none
    | some r1 =>
      match ws1 r1 with
      | none => none
      | some r2 => goDays (dayRems r2)
where
  goDays : List (List Char) → Option Nat
    | [] => none
    | r3 :: alts =>
      match
        (match commaWs1 r3 with
         | none => none
         | some r4 =>
           match matchYear r4 with
           | none => none
           | some r5 => if bdyAfter r5 then some (s.length - r5.length) else none)
      with
      | some n => some n
      | none => goDays alts

/-- Pattern 2 (line 302): `\b202[0-4]`, a dash or slash, `\d{2}`, a dash or
slash, `\d{2}`, `\b`. -/
def tryP2 (prev : Option Char) (s : List Char) : Option Nat :=
  if !bdyBefore prev then none
  else
    match matchYear s with
    | some (s1 :: d1 :: d2 :: s2 :: d3 :: d4 :: rest) =>
      if (s1 = '-' || s1 = '/') && d1.isDigit && d2.isDigit &&
         (s2 = '-' || s2 = '/') && d3.isDigit && d4.isDigit &&
         bdyAfter rest then
        some (s.length - rest.length)
      else none
    | _ => none

/-- The lookahead `\s*[-–]\s*\d{4}` of pattern 3. -/
def rangeAhead (s : List Char) : Bool :=
  match s.dropWhile pyIsSpaceChar with
  | c :: r =>
    if c = '-' || c = '–' then
      match r.dropWhile pyIsSpaceChar with
      | a :: b :: c' :: d :: _ => a.isDigit && b.isDigit && c'.isDigit && d.isDigit
      | _ => false
    else false
  | [] => false

/-- Pattern 3 (line 305): `\b202[0-4](?!\s*[-–]\s*\d{4})\b`. -/
def tryP3 (prev : Option Char) (s : List Char) : Option Nat :=
  if !bdyBefore prev then none
  else
    match matchYear s with
    | some rest =>
      if !rangeAhead rest && bdyAfter rest then some 4 else none
    | none => none

/-- Pattern 4 (line 308): `\b\d{1,2}\s+(month)\s+202[0-4]\b`. -/
def tryP4 (prev : Option Char) (s : List Char) : Option Nat :=
  if !bdyBefore prev then none
  else goDays (dayRems s)
where
  goDays : List (List Char) → Option Nat
    | [] => none
    | r1 :: alts =>
      match
        (match ws1 r1 with
         | none => none
         | some r2 =>
           match matchMonth r2 with
           | none => none
           | some r3 =>
             match ws1 r3 with
             | none => none
             | some r4 =>
               match matchYear r4 with
               | none => none
               | some r5 =>
                 if bdyAfter r5 then some (s.length - r5.length) else none)
      with
      | some n => some n
      | none => goDays alts

/-- `re.sub(pattern, '', s)`: scan the original string left to right,
delete every match, keep everything else.  `prev` is the previous character
of the original string (for the `\b` assertions). -/
def reSubDel (tryAt : Option Char → List Char → Option Nat) (s : List Char) :
    List Char :=
  go (s.length + 1) none s
where
  go : Nat → Option Char → List Char → List Char
    | 0, _, rest => rest
    | _ + 1, _, [] => []
    | fuel + 1, prev, c :: rest =>
      match tryAt prev (c :: rest) with
      | some n =>
        go fuel (((c :: rest).take n).getLast? ) ((c :: rest).drop n)
      | none => c :: go fuel (some c) rest

/-- Python `s.split()`: tokens separated by runs of whitespace. -/
def splitWS (s : List Char) : List (List Char) :=
  go (s.length + 1) s
where
  go : Nat → List Char → List (List Char)
    | 0, _ => []
    | _ + 1, [] => []
    | fuel + 1, s =>
      let s1 := s.dropWhile pyIsSpaceChar
      match s1 with
      | [] => []
      | _ :: _ =>
        (s1.takeWhile (fun c => !pyIsSpaceChar c)) ::
          go fuel (s1.dropWhile (fun c => !pyIsSpaceChar c))

/-- `' '.join(s.split())` (line 316). -/
def joinWords (s : List Char) : List Char :=
  match splitWS s with
  | [] => []
  | t :: ts => t ++ (ts.map (fun w => ' ' :: w)).flatten

/-- The `date_context` dictionary consumed by `_clean_query_dates`. -/
structure DateContext where
  today : List Char
  currentYear : Int

/-- `str(date_context['current_year'])`. -/
def intStr (n : Int) : List Char :=
  (toString n).toList

/-- `EnhancedQueryTransformer._clean_query_dates` (lines 279-322). -/
def cleanQueryDates (query : List Char) (ctx : DateContext) : List Char :=
  let q := pyReplace query "today".toList ctx.today
  let q := pyReplace q "Today".toList ctx.today
  let q := pyReplace q "this year".toList (intStr ctx.currentYear)
  let q := pyReplace q "current year".toList (intStr ctx.currentYear)
  let q := reSubDel tryP1 q
  let q := reSubDel tryP2 q
  let q := reSubDel tryP3 q
  let q := reSubDel tryP4 q
  pyStrip (joinWords q)

/-! ## Pipeline executor: search stage of
`EnhancedMarkdownReportGenerator._develop_with_research_pipeline`
(src/deep_search.py lines 1038-1076)

The web-search provider (`WebSearcher.search_google`) is abstracted as a
function from a query to the returned hit list. -/

/-- One search hit as returned by `WebSearcher.search_google`. -/
structure SearchHit where
  title : String
  link : String
  snippet : String
  deriving DecidableEq, Repr

/-- One `sources` progress event (line 1070-1071). -/
structure SourcesEvent where
  transformed_query : String
  urls : List String
  deriving DecidableEq, Repr

/-- Lines 1064-1068: for each hit, if its link is not in `all_urls`, append
it to `all_urls` and to `currentUrls`.  Returns `(currentUrls, all_urls)`. -/
def dedupNew : List SearchHit → List String → List String × List String
  | [], seen => ([], seen)
  | h :: rest, seen =>
    if h.link ∈ seen then dedupNew rest seen
    else
      let p := dedupNew rest (seen ++ [h.link])
      (h.link :: p.1, p.2)

/-- The search loop of lines 1058-1076: one provider call and one `sources`
event per query, threading the global dedup list. -/
def searchLoop (searchFn : String → List SearchHit) :
    List String → List String → List SourcesEvent
  | [], _ => []
  | q :: qs, seen =>
    let p := dedupNew (searchFn q) seen
    ⟨q, p.1⟩ :: searchLoop searchFn qs p.2

/-- Stage 1 cap / stage 2 of `_develop_with_research_pipeline`: line 1039
caps the plan to `max_search_queries`, line 1045 skips the stage entirely
when no search is wanted, line 1056 drops the first capped query, lines
1058-1076 run the loop. -/
def searchStage (webSearchNeeded : Bool) (planQueries : List String)
    (maxQ : Nat) (searchFn : String → List SearchHit) : List SourcesEvent :=
  let capped := planQueries.take maxQ
  if !webSearchNeeded || capped.isEmpty then []
  else searchLoop searchFn (capped.drop 1) []

/-! ## Scrape-result classification (src/deep_search.py lines 1121, 1161,
2749, 2801) -/

/-- One scrape result as consumed by the pipeline. -/
structure ScrapeResult where
  url : String
  best_chunk : String
  word_count : Nat
  tables_count : Nat
  error : Option String
  deriving DecidableEq, Repr

/-- Python truthiness of `s.get('error')` for an optional string field. -/
def errTruthy : Option String → Bool
  | none => false
  | some e => !e.isEmpty

/-- `successful_scrapes = [s for s in scraped_results if not s.get('error')]`
(lines 1121, 1161, 2749, 2801). -/
def successfulScrapes (rs : List ScrapeResult) : List ScrapeResult :=
  rs.filter (fun s => !errTruthy s.error)

/-- Modelled from the spec: "Successful iff `error` absent and `best_chunk`
non-empty" — the spec's success predicate, stated for comparison with the
source's `successfulScrapes`. -/
def specSuccessful (s : ScrapeResult) : Prop :=
  s.error = none ∧ s.best_chunk ≠ ""

/-! ## Generator post-hoc cleanup
(`_generate_html` lines 565-589, `_generate_markdown` lines 2966-2984) -/

/-- Fence stripping of `_generate_html` (lines 568-573). -/
def htmlFence (t : List Char) : List Char :=
  let t :=
    if "```html".toList.isPrefixOf t then t.drop 7
    else if "```".toList.isPrefixOf t then t.drop 3
    else t
  if "```".toList.isSuffixOf t then t.take (t.length - 3) else t

/-- The skeleton put around non-HTML output (lines 579-589), before the
inserted content. -/
def htmlWrapPre : List Char :=
  ("<!DOCTYPE html>\n<html lang=\"en\">\n<head>\n    <meta charset=\"UTF-8\">\n"
    ++ "    <meta name=\"viewport\" content=\"width=device-width, initial-scale=1.0\">\n"
    ++ "    <title>Generated Report</title>\n</head>\n<body>\n").toList

/-- The skeleton after the inserted content. -/
def htmlWrapPost : List Char :=
  "\n</body>\n</html>".toList

/-- Line 577: `html_content.lower().startswith("<!doctype") or
html_content.lower().startswith("<html")`. -/
def htmlLooksOk (t : List Char) : Bool :=
  "<!doctype".toList.isPrefixOf (pyLowerL t)
    || "<html".toList.isPrefixOf (pyLowerL t)

/-- The post-hoc cleanup of `_generate_html` (lines 565-589): strip, strip
fences, strip, wrap unless the text already looks like HTML. -/
def htmlCleanup (raw : List Char) : List Char :=
  let t := pyStrip raw
  let t := htmlFence t
  let t := pyStrip t
  if htmlLooksOk t then t else htmlWrapPre ++ t ++ htmlWrapPost

/-- Fence stripping of `_generate_markdown` (lines 2971-2978). -/
def mdFence (t : List Char) : List Char :=
  let t :=
    if "```markdown".toList.isPrefixOf t then t.drop 11
    else if "```md".toList.isPrefixOf t then t.drop 5
    else if "```".toList.isPrefixOf t then t.drop 3
    else t
  if "```".toList.isSuffixOf t then t.take (t.length - 3) else t

/-- Python substring membership `needle in hay`. -/
def hasSub (needle : List Char) : List Char → Bool
  | [] => needle.isEmpty
  | c :: rest => needle.isPrefixOf (c :: rest) || hasSub needle rest

/-- Line 2982: `not markdown_content.startswith("#") and "##" not in
markdown_content[:500]` — the condition under which a header is added. -/
def mdNeedsHeader (t : List Char) : Bool :=
  !("#".toList.isPrefixOf t) && !(hasSub "##".toList (t.take 500))

/-- The post-hoc cleanup of `_generate_markdown` (lines 2966-2984). -/
def markdownCleanup (raw : List Char) : List Char :=
  let t := pyStrip raw
  let t := mdFence t
  let t := pyStrip t
  if mdNeedsHeader t then "# Generated Report\n\n".toList ++ t else t

/-! ## Progress publishing (src/tasks.py lines 49-58, src/redis_client.py
lines 12-29)

The pub/sub transport (serialization plus `redis.publish`) is abstracted as
an outcome: it either succeeds or raises. -/

/-- Outcome of the underlying transport call. -/
inductive Transport
  | ok
  | err (msg : String)
  deriving DecidableEq, Repr

/-- `tasks.publish_progress` (tasks.py lines 49-58): returns early when the
client is unavailable; the `try`/`except` logs and swallows any transport
error. -/
def publishProgressTasks (clientUp : Bool) (t : Transport) :
    Except String Unit :=
  if !clientUp then .ok ()
  else
    match t with
    | .ok => .ok ()
    | .err _ => .ok ()

/-- `redis_client.publish_progress` (redis_client.py lines 12-29): no
handler around the transport call, so an error propagates to the caller. -/
def publishProgressRedis (t : Transport) : Except String Unit :=
  match t with
  | .ok => .ok ()
  | .err e => .error e

/-! ## Orchestration task `deep_search_task` (src/tasks.py lines 321-487) -/

/-- A value in the final payload dictionary. -/
inductive PV
  | str (s : String)
  | bool (b : Bool)
  | urlLists (v : List (List String))
  | emptyList
  | optStr (v : Option String)
  deriving DecidableEq, Repr

/-- An event published on the progress channel by `deep_search_task`. -/
inductive PubEvent
  | reasoningStep (step content : String)
  | sourcesFound (query : String) (found : Nat) (urls : List String)
  | errorFatal (conversationId message : String)
  | completeEv (payload : List (String × PV))
  deriving DecidableEq, Repr

/-- A result yielded by the generator pipeline, as dispatched on by
`run_generation` (tasks.py lines 402-446). -/
inductive GenResult
  | reasoning (content : String)
  | sources (transformedQuery : String) (urls : List String)
  | htmlEv (content : String)
  | markdownEv (content : String)
  | analysisSummary (content : String)
  | doneEv
  | otherEv (t : String)
  deriving DecidableEq, Repr

/-- The mutable state of `deep_search_task` during `run_generation`:
the `final_*` accumulators (lines 389-393) and the events published so
far. -/
structure TaskState where
  finalContent : String
  finalSources : List (List String)
  finalApp : Option String
  published : List PubEvent
  deriving DecidableEq, Repr

/-- One iteration of the `run_generation` loop (lines 402-446). -/
def stepGen (r : GenResult) (st : TaskState) : TaskState :=
  match r with
  | .reasoning c =>
    { st with published := st.published ++ [.reasoningStep c c] }
  | .sources q urls =>
    { st with
      finalSources := st.finalSources ++ [urls],
      published := st.published ++ [.sourcesFound q urls.length urls] }
  | .htmlEv c => { st with finalApp := some c }
  | .markdownEv c => { st with finalApp := some c }
  | .analysisSummary c => { st with finalContent := c }
  | .doneEv => st
  | .otherEv _ => st

/-- `run_generation` over the whole generator stream. -/
def runGeneration (events : List GenResult) (st : TaskState) : TaskState :=
  match events with
  | [] => st
  | r :: rs => runGeneration rs (stepGen r st)

/-- The `final_result` dictionary literal of lines 452-461. -/
def finalPayload (conversationId : String) (labMode : Bool)
    (st : TaskState) : List (String × PV) :=
  [("type", .str "complete"),
   ("conversation_id", .str conversationId),
   ("content", .str st.finalContent),
   ("sources", .urlLists st.finalSources),
   ("reasoning_steps", .emptyList),
   ("assets", .emptyList),
   ("app", .optStr st.finalApp),
   ("lab_mode", .bool labMode)]

/-- A successful run of `deep_search_task` after generator construction:
`run_generation` over the generator stream, then the `complete` publish
(lines 449-463).  Returns the final payload and the full published
stream. -/
def deepSearchTaskSuccess (conversationId : String) (labMode : Bool)
    (events : List GenResult) : List (String × PV) × List PubEvent :=
  let st := runGeneration events ⟨"", [], none, []⟩
  let payload := finalPayload conversationId labMode st
  (payload, st.published ++ [.completeEv payload])

/-- A consumer replaying the published stream: the url list of every
sources publication, in publication order. -/
def reconstructSources (pubs : List PubEvent) : List (List String) :=
  pubs.filterMap fun e =>
    match e with
    | .sourcesFound _ _ urls => some urls
    | _ => none

/-- The classes defined at top level of src/deep_search.py. -/
def deepSearchModuleClasses : List String :=
  ["WebScraper", "WebSearcher", "DataExtractor",
   "EnhancedMarkdownReportGenerator"]

/-- Outcome of one `deep_search_task` invocation. -/
inductive TaskOutcome
  | completed (payload : List (String × PV))
  | raisedImportError
  deriving Repr

/-- `deep_search_task` (tasks.py lines 329-487): the body's first statement
inside the `try` is `from deep_search import EnhancedHTMLAppGenerator`
(line 355), which raises `ImportError` when the module does not define that
class; the `except` branch (lines 471-487) publishes the fatal `error`
event and re-raises.  The rest of the pipeline is abstracted as
`pipeline`, reached only when the import succeeds. -/
def deepSearchTaskRun (classes : List String)
    (pipeline : Unit → List (String × PV) × List PubEvent)
    (conversationId : String) : TaskOutcome × List PubEvent :=
  if classes.contains "EnhancedHTMLAppGenerator" then
    let (payload, pubs) := pipeline ()
    (.completed payload, pubs)
  else
    (.raisedImportError,
     [.errorFatal conversationId
        "We encountered an issue processing your request. Please try again."])

/-! ## Supporting lemmas: the search stage -/

theorem searchLoop_queries (searchFn : String → List SearchHit)
    (qs : List String) : ∀ seen,
    (searchLoop searchFn qs seen).map (·.transformed_query) = qs := by
  induction qs with
  | nil => intro seen; rfl
  | cons q rest ih => intro seen; simp [searchLoop, ih]

theorem dedupNew_cur_not_seen (hits : List SearchHit) : ∀ seen : List String,
    ∀ u ∈ (dedupNew hits seen).1, u ∉ seen := by
  induction hits with
  | nil => intro seen u hu; simp [dedupNew] at hu
  | cons h rest ih =>
    intro seen u hu
    by_cases hmem : h.link ∈ seen
    · rw [dedupNew, if_pos hmem] at hu
      exact ih seen u hu
    · rw [dedupNew, if_neg hmem] at hu
      simp only [List.mem_cons] at hu
      rcases hu with rfl | hu
      · exact hmem
      · intro hc
        exact ih (seen ++ [h.link]) u hu (by simp [hc])

theorem dedupNew_seen_sub (hits : List SearchHit) : ∀ seen : List String,
    ∀ u ∈ seen, u ∈ (dedupNew hits seen).2 := by
  induction hits with
  | nil => intro seen u hu; simpa [dedupNew] using hu
  | cons h rest ih =>
    intro seen u hu
    by_cases hmem : h.link ∈ seen
    · rw [dedupNew, if_pos hmem]
      exact ih seen u hu
    · rw [dedupNew, if_neg hmem]
      exact ih (seen ++ [h.link]) u (by simp [hu])

theorem dedupNew_cur_sub_fin (hits : List SearchHit) : ∀ seen : List String,
    ∀ u ∈ (dedupNew hits seen).1, u ∈ (dedupNew hits seen).2 := by
  induction hits with
  | nil => intro seen u hu; simp [dedupNew] at hu
  | cons h rest ih =>
    intro seen u hu
    by_cases hmem : h.link ∈ seen
    · rw [dedupNew, if_pos hmem] at hu ⊢
      exact ih seen u hu
    · rw [dedupNew, if_neg hmem] at hu ⊢
      simp only [List.mem_cons] at hu
      rcases hu with rfl | hu
      · exact dedupNew_seen_sub rest (seen ++ [h.link]) h.link (by simp)
      · exact ih (seen ++ [h.link]) u hu

theorem searchLoop_not_seen (searchFn : String → List SearchHit)
    (qs : List String) : ∀ seen : List String,
    ∀ e ∈ searchLoop searchFn qs seen, ∀ u ∈ e.urls, u ∉ seen := by
  induction qs with
  | nil => intro seen e he; simp [searchLoop] at he
  | cons q rest ih =>
    intro seen e he u hu
    rw [searchLoop] at he
    simp only [List.mem_cons] at he
    rcases he with rfl | he
    · exact dedupNew_cur_not_seen (searchFn q) seen u hu
    · intro hc
      exact ih _ e he u hu (dedupNew_seen_sub (searchFn q) seen u hc)

theorem searchLoop_pairwise (searchFn : String → List SearchHit)
    (qs : List String) : ∀ seen : List String,
    (searchLoop searchFn qs seen).Pairwise
      (fun e1 e2 => ∀ u ∈ e1.urls, u ∉ e2.urls) := by
  induction qs with
  | nil => intro seen; simp [searchLoop]
  | cons q rest ih =>
    intro seen
    rw [searchLoop]
    refine List.Pairwise.cons ?_ (ih _)
    intro e he u hu
    have hin : u ∈ (dedupNew (searchFn q) seen).2 :=
      dedupNew_cur_sub_fin (searchFn q) seen u hu
    intro hc
    exact searchLoop_not_seen searchFn rest _ e he u hc hin

/-! ## Supporting lemmas: the task state fold -/

theorem reconstructSources_append (xs ys : List PubEvent) :
    reconstructSources (xs ++ ys)
      = reconstructSources xs ++ reconstructSources ys := by
  simp [reconstructSources, List.filterMap_append]

theorem runGeneration_inv (events : List GenResult) : ∀ st : TaskState,
    st.finalSources = reconstructSources st.published →
    (runGeneration events st).finalSources
      = reconstructSources (runGeneration events st).published := by
  induction events with
  | nil => intro st h; exact h
  | cons r rest ih =>
    intro st h
    rw [runGeneration]
    refine ih (stepGen r st) ?_
    cases r with
    | reasoning c =>
      simp [stepGen, reconstructSources_append, reconstructSources, h]
    | sources q urls =>
      simp [stepGen, reconstructSources_append, reconstructSources, h]
    | htmlEv c => simpa [stepGen] using h
    | markdownEv c => simpa [stepGen] using h
    | analysisSummary c => simpa [stepGen] using h
    | doneEv => simpa [stepGen] using h
    | otherEv t => simpa [stepGen] using h

/-! ## Supporting lemmas: plan normalization -/

theorem kWeb_ne_kSQ : kWeb ≠ kSQ := by decide
theorem kSQ_ne_kWeb : kSQ ≠ kWeb := by decide
theorem kSQ_ne_kDE : kSQ ≠ kDE := by decide
theorem kSQ_ne_kDT : kSQ ≠ kDT := by decide
theorem kWeb_ne_kDE : kWeb ≠ kDE := by decide
theorem kWeb_ne_kDT : kWeb ≠ kDT := by decide

theorem normWeb_other (fs : List (List Char × Json)) (k : List Char)
    (h : k ≠ kWeb) : lookupK (normWeb fs) k = lookupK fs k := by
  rw [normWeb]
  split
  · exact lookupK_setK_ne _ _ _ _ h
  · rfl

theorem normSQ_other (fs : List (List Char × Json)) (k : List Char)
    (h : k ≠ kSQ) : lookupK (normSQ fs) k = lookupK fs k := by
  rw [normSQ]
  split
  · rfl
  · exact lookupK_setK_ne _ _ _ _ h

theorem normDE_other (fs : List (List Char × Json)) (k : List Char)
    (h : k ≠ kDE) : lookupK (normDE fs) k = lookupK fs k := by
  rw [normDE]
  split
  · exact lookupK_setK_ne _ _ _ _ h
  · rfl

theorem normDT_other (fs : List (List Char × Json)) (k : List Char)
    (h : k ≠ kDT) : lookupK (normDT fs) k = lookupK fs k := by
  rw [normDT]
  split
  · rfl
  · exact lookupK_setK_ne _ _ _ _ h

theorem normWeb_web_str (fs : List (List Char × Json)) (s : List Char)
    (h : lookupK fs kWeb = some (Json.str s)) :
    lookupK (normWeb fs) kWeb
      = some (Json.bool (truthyStrs.contains (pyLowerL s))) := by
  rw [normWeb, h]
  exact lookupK_setK_self _ _ _

theorem normSQ_sq_arr (fs : List (List Char × Json)) (xs : List Json)
    (h : lookupK fs kSQ = some (Json.arr xs)) :
    lookupK (normSQ fs) kSQ = some (Json.arr xs) := by
  rw [normSQ, h]
  exact h

theorem normSQ_sq_nonarr (fs : List (List Char × Json))
    (h : ∀ xs, lookupK fs kSQ ≠ some (Json.arr xs)) :
    lookupK (normSQ fs) kSQ = some (Json.arr []) := by
  rw [normSQ]
  split
  · next xs heq => exact absurd heq (h xs)
  · exact lookupK_setK_self _ _ _

theorem webTruthy_setK_sq (fs : List (List Char × Json)) (v : Json) :
    webTruthy (setK fs kSQ v) = webTruthy fs := by
  rw [webTruthy, webTruthy, lookupK_setK_ne _ _ _ _ kWeb_ne_kSQ]

theorem planTail_ok (query : List Char) (fs : List (List Char × Json))
    (qs2 : List Json) (out : List (List Char × Json))
    (h : planTail query fs qs2 = .ok out) :
    lookupK out kWeb = lookupK fs kWeb ∧
    (∃ w, lookupK out kWeb = some w) ∧
    webTruthy out = webTruthy fs ∧
    lookupK out kSQ
      = some (Json.arr
          (if webTruthy fs && qs2.isEmpty then [Json.str query] else qs2)) := by
  rw [planTail] at h
  by_cases hc : (webTruthy (setK fs kSQ (Json.arr qs2)) && qs2.isEmpty) = true
  · rw [if_pos hc] at h
    rw [webTruthy_setK_sq] at hc
    have hout : out = setK (setK fs kSQ (Json.arr qs2)) kSQ
        (Json.arr [Json.str query]) := by
      split at h
      · exact absurd h (by intro hh; exact Except.noConfusion hh)
      · exact (Except.ok.inj h).symm
    subst hout
    refine ⟨?_, ?_, ?_, ?_⟩
    · rw [lookupK_setK_ne _ _ _ _ kWeb_ne_kSQ,
        lookupK_setK_ne _ _ _ _ kWeb_ne_kSQ]
    · rw [lookupK_setK_ne _ _ _ _ kWeb_ne_kSQ,
        lookupK_setK_ne _ _ _ _ kWeb_ne_kSQ]
      have := hc
      rw [Bool.and_eq_true] at this
      obtain ⟨hw, _⟩ := this
      rw [webTruthy] at hw
      revert hw
      split
      · intro hw; exact absurd hw (by simp)
      · next v heq => intro _; exact ⟨v, heq⟩
    · rw [webTruthy_setK_sq, webTruthy_setK_sq]
    · rw [if_pos hc]
      exact lookupK_setK_self _ _ _
  · rw [if_neg hc] at h
    rw [webTruthy_setK_sq] at hc
    have hout : out = setK fs kSQ (Json.arr qs2) := by
      split at h
      · exact absurd h (by intro hh; exact Except.noConfusion hh)
      · exact (Except.ok.inj h).symm
    have hweb : lookupK out kWeb = lookupK fs kWeb := by
      rw [hout, lookupK_setK_ne _ _ _ _ kWeb_ne_kSQ]
    refine ⟨hweb, ?_, ?_, ?_⟩
    · rw [hout] at h ⊢
      split at h
      · exact absurd h (by intro hh; exact Except.noConfusion hh)
      · next v heq => exact ⟨v, heq⟩
    · rw [hout, webTruthy_setK_sq]
    · rw [hout, if_neg hc]
      exact lookupK_setK_self _ _ _

theorem filterQsHead_str (s : List Char) (r : Except PyErr (List Json)) :
    filterQsHead (.str s) r =
      if (Json.str s).truthy = false then r
      else if (pyStrip s).isEmpty then r
      else
        match r with
        | .ok qs => .ok (.str s :: qs)
        | .error e => .error e := rfl

theorem filterQsHead_num (n : Int) (r : Except PyErr (List Json)) :
    filterQsHead (.num n) r =
      if (Json.num n).truthy = false then r
      else .error .attributeError := rfl

theorem filterQsHead_arr (xs : List Json) (r : Except PyErr (List Json)) :
    filterQsHead (.arr xs) r =
      if (Json.arr xs).truthy = false then r
      else .error .attributeError := rfl

theorem filterQsHead_obj (fs : List (List Char × Json))
    (r : Except PyErr (List Json)) :
    filterQsHead (.obj fs) r =
      if (Json.obj fs).truthy = false then r
      else .error .attributeError := rfl

theorem filterQs_strs (qs : List Json) : ∀ qs2, filterQs qs = .ok qs2 →
    ∀ x ∈ qs2, ∃ s, x = Json.str s := by
  induction qs with
  | nil =>
    intro qs2 h x hx
    rw [filterQs] at h
    rw [← Except.ok.inj h] at hx
    simp at hx
  | cons q rest ih =>
    intro qs2 h x hx
    rw [filterQs] at h
    cases q with
    | str s =>
      rw [filterQsHead_str] at h
      by_cases ht : (Json.str s).truthy = false
      · rw [if_pos ht] at h
        exact ih qs2 h x hx
      · rw [if_neg ht] at h
        by_cases hs : (pyStrip s).isEmpty = true
        · rw [if_pos hs] at h
          exact ih qs2 h x hx
        · rw [if_neg hs] at h
          revert h
          split
          · next qs3 heq =>
            intro h
            rw [← Except.ok.inj h] at hx
            rcases List.mem_cons.mp hx with rfl | hx2
            · exact ⟨s, rfl⟩
            · exact ih qs3 heq x hx2
          · intro h
            exact Except.noConfusion h
    | null => exact ih qs2 h x hx
    | bool b =>
      cases b
      · exact ih qs2 h x hx
      · exact Except.noConfusion h
    | num n =>
      rw [filterQsHead_num] at h
      by_cases ht : (Json.num n).truthy = false
      · rw [if_pos ht] at h
        exact ih qs2 h x hx
      · rw [if_neg ht] at h
        exact Except.noConfusion h
    | arr xs =>
      rw [filterQsHead_arr] at h
      by_cases ht : (Json.arr xs).truthy = false
      · rw [if_pos ht] at h
        exact ih qs2 h x hx
      · rw [if_neg ht] at h
        exact Except.noConfusion h
    | obj fs =>
      rw [filterQsHead_obj] at h
      by_cases ht : (Json.obj fs).truthy = false
      · rw [if_pos ht] at h
        exact ih qs2 h x hx
      · rw [if_neg ht] at h
        exact Except.noConfusion h

theorem filterQs_all_str (qs : List Json)
    (h : ∀ x ∈ qs, ∃ s, x = Json.str s) :
    filterQs qs = .ok (qs.filter pyKeep) := by
  induction qs with
  | nil => rfl
  | cons q rest ih =>
    obtain ⟨s, rfl⟩ := h q (List.mem_cons_self q rest)
    have hrest := ih (fun x hx => h x (List.mem_cons_of_mem _ hx))
    rw [filterQs, filterQsHead_str]
    by_cases ht : (Json.str s).truthy = false
    · rw [if_pos ht]
      have hk : pyKeep (Json.str s) = false := by
        rw [Json.truthy] at ht
        rw [pyKeep, ht, Bool.false_and]
      rw [List.filter_cons_of_neg (by rw [hk]; exact Bool.false_ne_true)]
      exact hrest
    · rw [if_neg ht]
      have hst : (!s.isEmpty) = true := by
        rw [Json.truthy] at ht
        cases hv : (!s.isEmpty)
        · exact absurd hv ht
        · rfl
      by_cases hs : (pyStrip s).isEmpty = true
      · rw [if_pos hs]
        have hk : pyKeep (Json.str s) = false := by
          rw [pyKeep, hs]
          simp
        rw [List.filter_cons_of_neg (by rw [hk]; exact Bool.false_ne_true)]
        exact hrest
      · rw [if_neg hs]
        have hk : pyKeep (Json.str s) = true := by
          rw [pyKeep, hst, Bool.true_and]
          cases hv : (pyStrip s).isEmpty
          · rfl
          · exact absurd hv hs
        rw [List.filter_cons_of_pos (by rw [hk]), hrest]

theorem normalizePlan_ok_destruct (query : List Char)
    (fs0 out : List (List Char × Json))
    (h : normalizePlan query (Json.obj fs0) = .ok out) :
    ∃ qs qs2,
      lookupK (normDT (normDE (normSQ (normWeb fs0)))) kSQ
        = some (Json.arr qs) ∧
      filterQs qs = .ok qs2 ∧
      planTail query (normDT (normDE (normSQ (normWeb fs0)))) qs2
        = .ok out := by
  rw [normalizePlan] at h
  revert h
  split
  · next qs heq =>
    split
    · intro h
      exact absurd h (by intro hh; exact Except.noConfusion hh)
    · next qs2 heq2 =>
      intro h
      exact ⟨qs, qs2, heq, heq2, h⟩
  · intro h
    exact absurd h (by intro hh; exact Except.noConfusion hh)

theorem normalizePlan_shape (query : List Char) (j : Json)
    (out : List (List Char × Json)) (h : normalizePlan query j = .ok out) :
    (∃ w, lookupK out kWeb = some w) ∧
    (∃ qs, lookupK out kSQ = some (Json.arr qs) ∧
      ∀ x ∈ qs, ∃ s, x = Json.str s) := by
  match j, h with
  | .obj fs0, h =>
    obtain ⟨qs, qs2, _, hfil, htail⟩ := normalizePlan_ok_destruct query fs0 out h
    obtain ⟨_, hw, _, hsq⟩ := planTail_ok query _ qs2 out htail
    refine ⟨hw, ?_⟩
    refine ⟨_, hsq, ?_⟩
    split
    · intro x hx
      rcases List.mem_cons.mp hx with rfl | hx2
      · exact ⟨query, rfl⟩
      · simp at hx2
    · exact filterQs_strs qs qs2 hfil

theorem getTransformedQuery_ok (jsonLoads : List Char → Option Json)
    (query raw : List Char) :
    getTransformedQuery jsonLoads query (.ok raw)
      = (match normalizePlan query
            (match jsonLoads (cleanLLMText raw) with
             | some v => v
             | none => Json.obj (regexFallback query (cleanLLMText raw))) with
         | .ok fs => fs
         | .error _ => emergencyFallback query) := rfl

theorem getTransformedQuery_parse_fail (jsonLoads : List Char → Option Json)
    (query raw : List Char) (hjson : jsonLoads (cleanLLMText raw) = none) :
    getTransformedQuery jsonLoads query (.ok raw)
      = (match normalizePlan query
            (Json.obj (regexFallback query (cleanLLMText raw))) with
         | .ok fs => fs
         | .error _ => emergencyFallback query) := by
  rw [getTransformedQuery_ok, hjson]

theorem emergencyFallback_shape (query : List Char) :
    (∃ w, lookupK (emergencyFallback query) kWeb = some w) ∧
    (∃ qs, lookupK (emergencyFallback query) kSQ = some (Json.arr qs) ∧
      ∀ x ∈ qs, ∃ s, x = Json.str s) := by
  refine ⟨⟨Json.bool true, rfl⟩, ⟨[Json.str query], rfl, ?_⟩⟩
  intro x hx
  rcases List.mem_cons.mp hx with rfl | hx2
  · exact ⟨query, rfl⟩
  · simp at hx2

theorem regexFallback_none (query t : List Char)
    (hweb : reWebSearch t = none) (hqs : queriesFromText t = []) :
    regexFallback query t = fallbackFields query := by
  rw [regexFallback, hweb, hqs]
  rfl

theorem normalizePlan_fallback (query : List Char) :
    ∃ out, normalizePlan query (Json.obj (fallbackFields query)) = .ok out ∧
      lookupK out kWeb = some (Json.bool true) ∧
      lookupK out kSQ = some (Json.arr [Json.str query]) := by
  have hnorm : normalizePlan query (Json.obj (fallbackFields query))
      = (match filterQs [Json.str query] with
         | .error e => (.error e : Except PyErr (List (List Char × Json)))
         | .ok qs2 => planTail query (fallbackFields query) qs2) := rfl
  have hfq : filterQs [Json.str query]
      = filterQsHead (Json.str query) (.ok []) := rfl
  by_cases hq : (Json.str query).truthy = false
  · refine ⟨setK (setK (fallbackFields query) kSQ (Json.arr [])) kSQ
        (Json.arr [Json.str query]), ?_, rfl, rfl⟩
    have hfil : filterQs [Json.str query] = .ok [] := by
      rw [hfq, filterQsHead_str, if_pos hq]
    rw [hnorm, hfil]
    rfl
  · by_cases hstrip : (pyStrip query).isEmpty = true
    · refine ⟨setK (setK (fallbackFields query) kSQ (Json.arr [])) kSQ
          (Json.arr [Json.str query]), ?_, rfl, rfl⟩
      have hfil : filterQs [Json.str query] = .ok [] := by
        rw [hfq, filterQsHead_str, if_neg hq, if_pos hstrip]
      rw [hnorm, hfil]
      rfl
    · refine ⟨setK (fallbackFields query) kSQ (Json.arr [Json.str query]),
        ?_, rfl, rfl⟩
      have hfil : filterQs [Json.str query] = .ok [Json.str query] := by
        rw [hfq, filterQsHead_str, if_neg hq, if_neg hstrip]
      rw [hnorm, hfil]
      rfl

/-! ## Claim theorems -/

/-- C1 (counterexample): for a plan `["a","b","c","d","e","f"]` with
`max_search_queries = 5` the executor makes only 4 search-provider calls
and emits 4 `sources` events, in order b, c, d, e — not the 5 calls in
order a..e that the claim states, because line 1056 of
`_develop_with_research_pipeline` drops the first capped query. -/
theorem claimC1_cex :
    (searchStage true ["a", "b", "c", "d", "e", "f"] 5 (fun _ => [])).map
        (·.transformed_query) = ["b", "c", "d", "e"] ∧
    (searchStage true ["a", "b", "c", "d", "e", "f"] 5 (fun _ => [])).length = 4 ∧
    (searchStage true ["a", "b", "c", "d", "e", "f"] 5 (fun _ => [])).map
        (·.transformed_query) ≠ ["a", "b", "c", "d", "e"] := by
  refine ⟨rfl, rfl, ?_⟩
  decide

/-- C1 (amended): when web search is wanted, the executor searches exactly
the capped plan minus its first query, once each, in plan order — one
`sources` event per executed query. -/
theorem claimC1 (webSearchNeeded : Bool) (planQueries : List String)
    (maxQ : Nat) (searchFn : String → List SearchHit)
    (h : webSearchNeeded = true) :
    (searchStage webSearchNeeded planQueries maxQ searchFn).map
        (·.transformed_query) = (planQueries.take maxQ).drop 1 := by
  subst h
  rw [searchStage]
  by_cases hcap : (planQueries.take maxQ).isEmpty
  · rw [List.isEmpty_iff] at hcap
    simp [hcap]
  · simp only [Bool.not_true, Bool.false_or, hcap, if_false]
    exact searchLoop_queries searchFn _ []

/-- C1 (witness): the amended statement evaluated at the claim's E2
instance. -/
theorem claimC1_witness :
    (searchStage true ["a", "b", "c", "d", "e", "f"] 5
        (fun _ => ([] : List SearchHit))).map (·.transformed_query)
      = ["b", "c", "d", "e"] := by
  rw [claimC1 true ["a", "b", "c", "d", "e", "f"] 5 (fun _ => []) rfl]
  rfl

/-- C3: urls are deduplicated globally across a job's search queries — no
url appears in two distinct `sources` events — and on the E4 instance
(executed queries returning urls u1,u2 and u2,u3) the events carry
[u1, u2] and [u3]. -/
theorem claimC3 :
    (∀ (webSearchNeeded : Bool) (planQueries : List String) (maxQ : Nat)
        (searchFn : String → List SearchHit),
      (searchStage webSearchNeeded planQueries maxQ searchFn).Pairwise
        (fun e1 e2 => ∀ u ∈ e1.urls, u ∉ e2.urls)) ∧
    (searchStage true ["q0", "q1", "q2"] 5
        (fun q =>
          if q = "q1" then [⟨"t1", "u1", "s1"⟩, ⟨"t2", "u2", "s2"⟩]
          else [⟨"t3", "u2", "s3"⟩, ⟨"t4", "u3", "s4"⟩])).map (·.urls)
      = [["u1", "u2"], ["u3"]] := by
  constructor
  · intro web planQueries maxQ searchFn
    rw [searchStage]
    split
    · exact List.Pairwise.nil
    · exact searchLoop_pairwise searchFn _ []
  · rfl

/-- C5 (counterexample): for the LLM response `"Intro\n## Section"` the
markdown cleanup returns the text unchanged (it contains `"##"` within its
first 500 characters), so the returned body does not start with `'#'`. -/
theorem claimC5_cex :
    markdownCleanup "Intro\n## Section".toList = "Intro\n## Section".toList ∧
    "#".toList.isPrefixOf (markdownCleanup "Intro\n## Section".toList)
      = false :=
  ⟨rfl, rfl⟩

/-- C5 (amended): after cleanup the HTML body always starts with
`<!doctype` or `<html` (case-insensitive); the markdown body starts with
`'#'` unless it contains `"##"` within its first 500 characters. -/
theorem htmlLooksOk_wrap (t : List Char) :
    htmlLooksOk (if htmlLooksOk t then t
      else htmlWrapPre ++ t ++ htmlWrapPost) = true := by
  by_cases h : htmlLooksOk t = true
  · rw [if_pos h]; exact h
  · rw [if_neg h]
    have hpre : "<!doctype".toList <+: pyLowerL htmlWrapPre := by decide
    have hp : "<!doctype".toList.isPrefixOf
        (pyLowerL (htmlWrapPre ++ t ++ htmlWrapPost)) = true := by
      rw [List.isPrefixOf_iff_prefix, pyLowerL, List.append_assoc,
        List.map_append]
      exact hpre.trans (List.prefix_append _ _)
    rw [htmlLooksOk, hp, Bool.true_or]

theorem mdHeader_disj (t : List Char) :
    "#".toList.isPrefixOf
        (if mdNeedsHeader t then "# Generated Report\n\n".toList ++ t else t)
      = true ∨
    hasSub "##".toList
        ((if mdNeedsHeader t then "# Generated Report\n\n".toList ++ t
          else t).take 500)
      = true := by
  by_cases h : mdNeedsHeader t = true
  · left
    rw [if_pos h]
    rfl
  · rw [if_neg h]
    rw [mdNeedsHeader] at h
    by_cases h1 : "#".toList.isPrefixOf t = true
    · exact Or.inl h1
    · right
      by_contra h2
      apply h
      rw [Bool.eq_false_iff.mpr h1, Bool.eq_false_iff.mpr h2]
      rfl

theorem claimC5 (raw : List Char) :
    htmlLooksOk (htmlCleanup raw) = true ∧
    ("#".toList.isPrefixOf (markdownCleanup raw) = true ∨
      hasSub "##".toList ((markdownCleanup raw).take 500) = true) := by
  refine ⟨?_, ?_⟩
  · exact htmlLooksOk_wrap (pyStrip (htmlFence (pyStrip raw)))
  · exact mdHeader_disj (pyStrip (mdFence (pyStrip raw)))

/-- C6 (counterexample): a scrape result with no `error` field and an empty
`best_chunk` is counted among the successful scrapes by the pipeline
(lines 1121, 2749 test only `not s.get('error')`), contradicting the
claim that success also requires a non-empty `best_chunk`. -/
theorem claimC6_cex :
    (⟨"u", "", 7, 0, none⟩ : ScrapeResult) ∈
        successfulScrapes [⟨"u", "", 7, 0, none⟩] ∧
    ¬ specSuccessful ⟨"u", "", 7, 0, none⟩ := by
  constructor
  · simp [successfulScrapes, errTruthy]
  · rintro ⟨h1, h2⟩
    exact h2 rfl

/-- C6 (amended): the pipeline classifies a scrape result as successful
iff its `error` field is absent or falsy (the empty string); `best_chunk`
is not consulted. -/
theorem claimC6 (rs : List ScrapeResult) (s : ScrapeResult) :
    s ∈ successfulScrapes rs
      ↔ s ∈ rs ∧ (s.error = none ∨ s.error = some "") := by
  rw [successfulScrapes, List.mem_filter]
  have herr : (!errTruthy s.error) = true
      ↔ (s.error = none ∨ s.error = some "") := by
    cases he : s.error with
    | none => simp [errTruthy]
    | some e =>
      simp only [errTruthy, Bool.not_not, Option.some.injEq]
      rw [String.isEmpty_iff]
      simp
  rw [herr]

/-- C8 (counterexample): `redis_client.publish_progress` has no handler
around the transport call, so a transport error propagates to its caller —
the claim that publish never raises fails for this publish operation. -/
theorem claimC8_cex :
    publishProgressRedis (.err "connection refused")
        = .error "connection refused" ∧
    publishProgressRedis (.err "connection refused") ≠ .ok () := by
  refine ⟨rfl, ?_⟩
  intro h
  exact Except.noConfusion h

/-- C8 (amended): `tasks.publish_progress` is fire-and-forget — it returns
normally for every client state and transport outcome — while
`redis_client.publish_progress` propagates every transport error. -/
theorem claimC8 (clientUp : Bool) (t : Transport) :
    publishProgressTasks clientUp t = .ok () ∧
    (∀ e, publishProgressRedis (.err e) = .error e) := by
  constructor
  · cases clientUp <;> cases t <;> rfl
  · intro e
    rfl

/-- C9: on a successful run the final `complete` payload carries exactly
the fields type, conversation_id, content, sources, reasoning_steps,
assets, app, lab_mode, and its `sources` field equals the url lists of the
sources publications of the run, in publication order. -/
theorem claimC9 (conversationId : String) (labMode : Bool)
    (events : List GenResult) :
    ((deepSearchTaskSuccess conversationId labMode events).1.map Prod.fst
      = ["type", "conversation_id", "content", "sources", "reasoning_steps",
         "assets", "app", "lab_mode"]) ∧
    ((deepSearchTaskSuccess conversationId labMode events).1
      = finalPayload conversationId labMode
          (runGeneration events ⟨"", [], none, []⟩) ∧
     List.lookup "sources"
        (finalPayload conversationId labMode
          (runGeneration events ⟨"", [], none, []⟩))
      = some (PV.urlLists (reconstructSources
          (deepSearchTaskSuccess conversationId labMode events).2))) := by
  have hinv : (runGeneration events ⟨"", [], none, []⟩).finalSources
      = reconstructSources (runGeneration events ⟨"", [], none, []⟩).published :=
    runGeneration_inv events ⟨"", [], none, []⟩ rfl
  refine ⟨rfl, rfl, ?_⟩
  show List.lookup "sources" (finalPayload conversationId labMode
      (runGeneration events ⟨"", [], none, []⟩))
    = some (PV.urlLists (reconstructSources
        ((runGeneration events ⟨"", [], none, []⟩).published
          ++ [.completeEv (finalPayload conversationId labMode
                (runGeneration events ⟨"", [], none, []⟩))])))
  rw [reconstructSources_append]
  simp [finalPayload, List.lookup, reconstructSources, hinv]

/-- C10: the tasks module imports `EnhancedHTMLAppGenerator` from
deep_search, which does not define it; the task therefore fails at the
import, before any pipeline stage runs (the outcome is independent of the
pipeline), and publishes exactly the fatal `error` event. -/
theorem claimC10 :
    "EnhancedHTMLAppGenerator" ∉ deepSearchModuleClasses ∧
    (∀ (pipeline : Unit → List (String × PV) × List PubEvent)
        (conversationId : String),
      deepSearchTaskRun deepSearchModuleClasses pipeline conversationId
        = (.raisedImportError,
           [.errorFatal conversationId
              "We encountered an issue processing your request. Please try again."])) := by
  constructor
  · decide
  · intro pipeline conversationId
    rfl

/-- C2: the query planner never raises — for every user query and every
LLM outcome (any response text under any `json.loads` behaviour, or an
exception while producing the response) it yields a plan dictionary whose
`web_search_needed` key is present and whose `search_queries` is a list of
strings — and when parsing completely fails (`json.loads` fails and the
regex extractor recovers neither the boolean nor any query) the plan
carries `web_search_needed = true` and `search_queries = [user query]`. -/
theorem claimC2 (jsonLoads : List Char → Option Json) (query : List Char)
    (llm : Except PyErr (List Char)) :
    ((∃ w, lookupK (getTransformedQuery jsonLoads query llm) kWeb = some w) ∧
     (∃ qs, lookupK (getTransformedQuery jsonLoads query llm) kSQ
          = some (Json.arr qs) ∧ ∀ x ∈ qs, ∃ s, x = Json.str s)) ∧
    (∀ raw, llm = .ok raw →
      jsonLoads (cleanLLMText raw) = none →
      reWebSearch (cleanLLMText raw) = none →
      queriesFromText (cleanLLMText raw) = [] →
      lookupK (getTransformedQuery jsonLoads query llm) kWeb
          = some (Json.bool true) ∧
      lookupK (getTransformedQuery jsonLoads query llm) kSQ
          = some (Json.arr [Json.str query])) := by
  constructor
  · cases llm with
    | error e => exact emergencyFallback_shape query
    | ok raw =>
      rw [getTransformedQuery_ok]
      cases hnp : normalizePlan query
          (match jsonLoads (cleanLLMText raw) with
           | some v => v
           | none => Json.obj (regexFallback query (cleanLLMText raw))) with
      | ok fs => exact normalizePlan_shape query _ fs hnp
      | error e => exact emergencyFallback_shape query
  · intro raw hllm hjson hweb hqs
    subst hllm
    rw [getTransformedQuery_parse_fail jsonLoads query raw hjson,
      regexFallback_none query _ hweb hqs]
    obtain ⟨out, hout, hw, hsq⟩ := normalizePlan_fallback query
    rw [hout]
    exact ⟨hw, hsq⟩

/-- C2 (witness): the complete-parse-failure case evaluated at a concrete
unparseable response. -/
theorem claimC2_witness :
    lookupK (getTransformedQuery (fun _ => none) "my query".toList
        (.ok "total garbage".toList)) kWeb = some (Json.bool true) ∧
    lookupK (getTransformedQuery (fun _ => none) "my query".toList
        (.ok "total garbage".toList)) kSQ
      = some (Json.arr [Json.str "my query".toList]) :=
  (claimC2 (fun _ => none) "my query".toList
      (.ok "total garbage".toList)).2 "total garbage".toList rfl rfl rfl rfl

/-- C7 (counterexample): when the parsed plan's `search_queries` is the
scalar string `"paris weather"` (and `web_search_needed` is the string
`"false"`), the planner returns the empty query list, not the singleton
`["paris weather"]` the claim states (line 209 replaces any non-list by
`[]`). -/
theorem claimC7_cex :
    lookupK (getTransformedQuery scalarPlanStub "q".toList
        (.ok "resp".toList)) kSQ = some (Json.arr []) ∧
    lookupK (getTransformedQuery scalarPlanStub "q".toList
        (.ok "resp".toList)) kSQ
      ≠ some (Json.arr [Json.str "paris weather".toList]) := by
  refine ⟨rfl, fun h => ?_⟩
  rw [show lookupK (getTransformedQuery scalarPlanStub "q".toList
      (.ok "resp".toList)) kSQ = some (Json.arr []) from rfl] at h
  simp at h

/-- C7 (amended): step-4 normalization maps a string `web_search_needed`
to the boolean `lower(s) ∈ ['true','1','yes']` (so `"true"` to true and
`"false"` to false); replaces a non-list `search_queries` by the empty
list (which the line-223 restore turns into `[user query]` exactly when
`web_search_needed` is truthy); and drops empty and whitespace-only string
queries from a list value. -/
theorem claimC7 (query : List Char) (fs0 : List (List Char × Json)) :
    (∀ s out, lookupK fs0 kWeb = some (Json.str s) →
      normalizePlan query (Json.obj fs0) = .ok out →
      lookupK out kWeb
        = some (Json.bool (truthyStrs.contains (pyLowerL s)))) ∧
    ((∀ xs, lookupK fs0 kSQ ≠ some (Json.arr xs)) →
      ∀ out, normalizePlan query (Json.obj fs0) = .ok out →
      lookupK out kSQ
        = some (Json.arr
            (if webTruthy out then [Json.str query] else []))) ∧
    (∀ qs out, lookupK fs0 kSQ = some (Json.arr qs) →
      (∀ x ∈ qs, ∃ s, x = Json.str s) →
      normalizePlan query (Json.obj fs0) = .ok out →
      lookupK out kSQ
        = some (Json.arr
            (if (qs.filter pyKeep).isEmpty && webTruthy out
             then [Json.str query] else qs.filter pyKeep))) := by
  refine ⟨?_, ?_, ?_⟩
  · intro s out hs hok
    obtain ⟨qs, qs2, hsqD, hfil, htail⟩ :=
      normalizePlan_ok_destruct query fs0 out hok
    obtain ⟨hweb_eq, _, _, _⟩ := planTail_ok query _ qs2 out htail
    rw [hweb_eq, normDT_other _ _ kWeb_ne_kDT, normDE_other _ _ kWeb_ne_kDE,
      normSQ_other _ _ kWeb_ne_kSQ, normWeb_web_str fs0 s hs]
  · intro hnot out hok
    obtain ⟨qs, qs2, hsqD, hfil, htail⟩ :=
      normalizePlan_ok_destruct query fs0 out hok
    have hsq_nonarr : ∀ xs,
        lookupK (normWeb fs0) kSQ ≠ some (Json.arr xs) := by
      intro xs
      rw [normWeb_other _ _ kSQ_ne_kWeb]
      exact hnot xs
    have hempty : lookupK (normDT (normDE (normSQ (normWeb fs0)))) kSQ
        = some (Json.arr []) := by
      rw [normDT_other _ _ kSQ_ne_kDT, normDE_other _ _ kSQ_ne_kDE,
        normSQ_sq_nonarr _ hsq_nonarr]
    have hqs_nil : qs = [] := by
      rw [hempty] at hsqD
      have := Option.some.inj hsqD
      exact (Json.arr.inj this.symm)
    subst hqs_nil
    have hqs2_nil : qs2 = [] := by
      rw [show filterQs [] = Except.ok ([] : List Json) from rfl] at hfil
      exact (Except.ok.inj hfil).symm
    subst hqs2_nil
    obtain ⟨_, _, hwt, hsq⟩ := planTail_ok query _ [] out htail
    rw [hsq, hwt]
    rw [show (List.isEmpty ([] : List Json)) = true from rfl, Bool.and_true]
  · intro qs out hsq0 hstr hok
    obtain ⟨qs', qs2, hsqD, hfil, htail⟩ :=
      normalizePlan_ok_destruct query fs0 out hok
    have harr : lookupK (normDT (normDE (normSQ (normWeb fs0)))) kSQ
        = some (Json.arr qs) := by
      rw [normDT_other _ _ kSQ_ne_kDT, normDE_other _ _ kSQ_ne_kDE,
        normSQ_sq_arr _ qs (by rw [normWeb_other _ _ kSQ_ne_kWeb]; exact hsq0)]
    have hqs_eq : qs' = qs := by
      rw [harr] at hsqD
      exact (Json.arr.inj (Option.some.inj hsqD)).symm
    subst hqs_eq
    have hqs2_eq : qs2 = qs'.filter pyKeep := by
      rw [filterQs_all_str qs' hstr] at hfil
      exact (Except.ok.inj hfil).symm
    subst hqs2_eq
    obtain ⟨_, _, hwt, hsq⟩ := planTail_ok query _ _ out htail
    cases hc : (qs'.filter pyKeep).isEmpty
    · rw [hsq, hwt, hc, Bool.and_false, Bool.false_and]
    · rw [hsq, hwt, hc, Bool.and_true, Bool.true_and]

/-- C7 (witness): the amended statement evaluated on a concrete parsed
plan (`web_search_needed = "True"`, queries `["a", ""]`). -/
theorem claimC7_witness :
    normalizePlan "q".toList (Json.obj
        [(kWeb, Json.str "True".toList),
         (kSQ, Json.arr [Json.str "a".toList, Json.str "".toList])])
      = .ok [(kWeb, Json.bool true),
             (kSQ, Json.arr [Json.str "a".toList]),
             (kDT, Json.arr [])] ∧
    lookupK [(kWeb, Json.bool true),
             (kSQ, Json.arr [Json.str "a".toList]),
             (kDT, Json.arr [])] kWeb = some (Json.bool true) ∧
    lookupK [(kWeb, Json.bool true),
             (kSQ, Json.arr [Json.str "a".toList]),
             (kDT, Json.arr [])] kSQ
      = some (Json.arr [Json.str "a".toList]) := by
  refine ⟨rfl, ?_, ?_⟩
  · exact (claimC7 "q".toList
        [(kWeb, Json.str "True".toList),
         (kSQ, Json.arr [Json.str "a".toList, Json.str "".toList])]).1
      "True".toList
      [(kWeb, Json.bool true), (kSQ, Json.arr [Json.str "a".toList]),
       (kDT, Json.arr [])] rfl rfl
  · exact (claimC7 "q".toList
        [(kWeb, Json.str "True".toList),
         (kSQ, Json.arr [Json.str "a".toList, Json.str "".toList])]).2.2
      [Json.str "a".toList, Json.str "".toList]
      [(kWeb, Json.bool true), (kSQ, Json.arr [Json.str "a".toList]),
       (kDT, Json.arr [])] rfl (by
        intro x hx
        rcases List.mem_cons.mp hx with rfl | hx2
        · exact ⟨_, rfl⟩
        · rcases List.mem_cons.mp hx2 with rfl | hx3
          · exact ⟨_, rfl⟩
          · simp at hx3) rfl

/-- C4: the planner does not scrub its queries — for the response
`staleYearText` the returned plan carries `"US GDP 2023"` verbatim, with
its bare stale year, while `_clean_query_dates` (defined but never called)
would have excised the year and returned `"US GDP"`. -/
theorem claimC4_eval :
    lookupK (getTransformedQuery staleYearStub "gdp question".toList
        (.ok staleYearText)) kSQ
      = some (Json.arr [Json.str "US GDP 2023".toList]) ∧
    cleanQueryDates "US GDP 2023".toList
        ⟨"October 12, 2026".toList, 2026⟩ = "US GDP".toList ∧
    "US GDP 2023".toList ≠ "US GDP".toList := by
  refine ⟨rfl, rfl, by decide⟩

end DeepShip

